import Mathlib

/-!
Verification of the rsyncuptime monitoring server (server.go) against its
specification.  The Go source is shallowly embedded: each pure fragment of
the server becomes a Lean function over `List`/`String`/`Nat`, stateful slice
manipulation becomes explicit state passing (and, for the aliasing claim, an
explicit heap of arrays), and `time.Time` instants are abstracted to `Nat`.
-/

/-- Go `http.StatusOK`. -/
def statusOK : Nat := 200

/-- Go `http.StatusBadRequest`. -/
def statusBadRequest : Nat := 400

/-- Go `http.StatusNotFound`. -/
def statusNotFound : Nat := 404

/-- Go `http.StatusInternalServerError`. -/
def statusInternalServerError : Nat := 500

/-- The `CheckResult` struct of server.go (lines 61-69).  `Timestamp` is an
abstract instant (Go `time.Time`), modelled as a `Nat`. -/
structure CheckResult where
  IsUp : Bool
  Message : String
  Error : String
  HTTPStatus : Nat
  RsyncExitCode : Nat
  RsyncOutput : String
  Timestamp : Nat
  deriving DecidableEq

/-- The Go zero value of `CheckResult` (used only to model uninitialised
array cells in the heap model below). -/
def CheckResult.zero : CheckResult :=
  { IsUp := false, Message := "", Error := "", HTTPStatus := 0,
    RsyncExitCode := 0, RsyncOutput := "", Timestamp := 0 }

/-- The error value returned by `cmd.CombinedOutput()` in `performCheck`:
`exitErr c` is an `exec.ExitError` whose `WaitStatus` carries exit status `c`
(Go returns such an error exactly when the process ran and exited non-zero),
and `launchErr` is any other error (the subprocess could not be started, so
no exit status is available and `RsyncExitCode` keeps its zero value).
`none` at the use sites below means `err == nil`, i.e. exit status 0. -/
inductive ProbeError where
  | exitErr (code : Nat)
  | launchErr
  deriving DecidableEq

/-- Occurrence of `sub` as a contiguous run somewhere inside `s`, scanning
positions left to right; this is the semantics of Go `strings.Contains`. -/
def charsContains (sub : List Char) : List Char → Bool
  | [] => sub.isPrefixOf []
  | c :: cs => sub.isPrefixOf (c :: cs) || charsContains sub cs

/-- Go `strings.Contains s sub`. -/
def strContains (s sub : String) : Bool :=
  charsContains sub.data s.data

/-- Go `unicode.IsSpace`: the Unicode White Space property (Latin-1 plus
the listed higher code points), as tested by `strings.TrimSpace`. -/
def goIsSpace (c : Char) : Bool :=
  c = '\t' || c = '\n' || c = (Char.ofNat 0x0B) || c = (Char.ofNat 0x0C)
    || c = '\r' || c = ' ' || c = (Char.ofNat 0x85) || c = (Char.ofNat 0xA0)
    || c = (Char.ofNat 0x1680)
    || ((Char.ofNat 0x2000) ≤ c && c ≤ (Char.ofNat 0x200A))
    || c = (Char.ofNat 0x2028) || c = (Char.ofNat 0x2029)
    || c = (Char.ofNat 0x202F) || c = (Char.ofNat 0x205F)
    || c = (Char.ofNat 0x3000)

/-- Go `strings.TrimSpace`: remove leading and trailing white space. -/
def goTrimSpace (s : String) : String :=
  { data := ((s.data.dropWhile goIsSpace).reverse.dropWhile goIsSpace).reverse }

/-- Go `strings.Split(s, "\n")` at the character level: cut at every
newline, keeping empty pieces; the result always has one piece more than
the number of newlines. -/
def splitCharsNewline : List Char → List (List Char)
  | [] => [[]]
  | c :: rest =>
      let r := splitCharsNewline rest
      if c = '\n' then [] :: r
      else
        match r with
        | [] => [[c]]
        | h :: t => (c :: h) :: t

/-- Go `strings.Split(s, "\n")` (used at `performCheck` line 155). -/
def goSplitNewline (s : String) : List String :=
  (splitCharsNewline s.data).map (fun l => { data := l })

/-- The scan in `performCheck` (lines 154-162): walk the lines, trim each,
and return the first one that is non-empty (or `""` when none is). -/
def firstNonEmptyLine : List String → String
  | [] => ""
  | l :: ls =>
      if goTrimSpace l ≠ "" then goTrimSpace l else firstNonEmptyLine ls

/-- The sentinel substring the probe emits for a module name that does not
exist on the remote end (`performCheck`, line 167). -/
def unknownModuleSentinel : String := "@ERROR: Unknown module"

/-- The fixed placeholder substituted when the probe produced no non-empty
output line (`performCheck`, line 164). -/
def unknownRsyncErrorMsg : String := "Erro desconhecido do rsync"

/-- The outcome-classification step of `performCheck` (server.go lines
132-174), as a pure function of the probe result.  `ts` is the instant read
by `time.Now()` at line 132; `probeErr` is the error value returned by
`CombinedOutput` (see `ProbeError`); `outputStr` is the combined output. -/
def performCheckClassify (ts : Nat) (probeErr : Option ProbeError)
    (outputStr : String) : CheckResult :=
  match probeErr with
  | none =>
      { IsUp := true, Message := "Operational", Error := "",
        HTTPStatus := statusOK, RsyncExitCode := 0, RsyncOutput := "",
        Timestamp := ts }
  | some pe =>
      let exitCode := match pe with
        | ProbeError.exitErr c => c
        | ProbeError.launchErr => 0
      let firstLine0 := firstNonEmptyLine (goSplitNewline outputStr)
      let firstLine := if firstLine0 = "" then unknownRsyncErrorMsg else firstLine0
      { IsUp := false, Message := "",
        Error := firstLine,
        HTTPStatus :=
          if strContains outputStr unknownModuleSentinel
          then statusNotFound else statusInternalServerError,
        RsyncExitCode := exitCode,
        RsyncOutput := goTrimSpace outputStr,
        Timestamp := ts }

/-- The character class `[a-zA-Z0-9_.-]` of the regular expression in
`isValidModulePath` (server.go line 233). -/
def isAllowedModuleChar (c : Char) : Bool :=
  (decide ('a' ≤ c) && decide (c ≤ 'z'))
    || (decide ('A' ≤ c) && decide (c ≤ 'Z'))
    || (decide ('0' ≤ c) && decide (c ≤ '9'))
    || c == '_' || c == '.' || c == '-'

/-- `isValidModulePath` (server.go lines 230-235): `regexp.MatchString` of
the pattern anchored on both sides, one-or-more repetition of the class
`[a-zA-Z0-9_.-]`; a string matches exactly when it is non-empty and every
one of its characters is in the class. -/
def isValidModulePath (module : String) : Bool :=
  !module.data.isEmpty && module.data.all isAllowedModuleChar

/-- The append-and-evict step at the end of `performCheck` (lines 176-181),
at the level of list values:
`sc.results = append(sc.results, newResult)` followed by
`if len(sc.results) > sc.maxResults { sc.results = sc.results[1:] }`. -/
def performCheckAppend (maxResults : Nat) (results : List CheckResult)
    (newResult : CheckResult) : List CheckResult :=
  let res := results ++ [newResult]
  if maxResults < res.length then res.drop 1 else res

/-- Folding `performCheckAppend` over a whole sequence of outcomes, starting
from the empty history a fresh `StatusChecker` owns. -/
def performCheckAppendAll (maxResults : Nat) (rs : List CheckResult) :
    List CheckResult :=
  rs.foldl (performCheckAppend maxResults) []

/-- 24 hours in nanoseconds.  Go `time.Duration` is a count of nanoseconds
in an `int64`, and `24*time.Hour/pollingInterval` with both operands
positive is truncating integer division, i.e. `Nat` division here. -/
def day_ns : Nat := 24 * 60 * 60 * 1000000000

/-- The `maxResults` computation of `NewStatusChecker` (server.go lines
104-108): `int(24*time.Hour/pollingInterval)`, raised to 1 when smaller. -/
def newStatusCheckerMaxResults (pollingInterval_ns : Nat) : Nat :=
  let maxResults := day_ns / pollingInterval_ns
  if maxResults < 1 then 1 else maxResults

/-- One JSON object of the `/status/<module>` response array (`ServeHTTP`,
lines 198-224).  The Go code builds a `map[string]interface{}`; keys that
are inserted only conditionally are modelled as `Option` fields. -/
structure StatusEntry where
  is_up : Bool
  success : Bool
  message : Option String
  error : Option String
  http_status : Nat
  timestamp : Nat
  path : String
  rsync_output : Option String
  code : Option Nat
  rsync_exit_code : Option Nat
  deriving DecidableEq

/-- The per-result body construction of `ServeHTTP` (lines 199-223). -/
def renderResult (path : String) (res : CheckResult) : StatusEntry :=
  { is_up := res.IsUp
    success := res.IsUp
    message := if res.IsUp then some res.Message else none
    error := if res.IsUp then none else some res.Error
    http_status := res.HTTPStatus
    timestamp := res.Timestamp
    path := path
    rsync_output := if res.RsyncOutput ≠ "" then some res.RsyncOutput else none
    code := if res.IsUp then some 0 else some res.RsyncExitCode
    rsync_exit_code :=
      if !res.IsUp && res.RsyncExitCode ≠ 0 then some res.RsyncExitCode else none }

/-- `StatusChecker.ServeHTTP` (lines 184-226) as a pure function from the
snapshotted results to the written status code and body.  The Go code calls
`WriteHeader` only when the copy is non-empty; with no explicit call,
`net/http` writes 200 OK on the first body write, so the empty case is 200. -/
def serveHTTPResponse (path : String) (resultsCopy : List CheckResult) :
    Nat × List StatusEntry :=
  (match resultsCopy.getLast? with
    | none => statusOK
    | some latest => latest.HTTPStatus,
   resultsCopy.map (renderResult path))

/-- The body written by `writeJSONError` (server.go lines 238-247). -/
structure JSONErrorBody where
  path : String
  success : Bool
  error : String
  code : Nat
  deriving DecidableEq

/-- `writeJSONError` (lines 238-247): the status code written to the header
together with the structured JSON body. -/
def writeJSONError (statusCode : Nat) (message : String) (path : String) :
    Nat × JSONErrorBody :=
  (statusCode,
   { path := path, success := false, error := message, code := statusCode })

/-- A response produced by the `/status/` handler: either a `writeJSONError`
body or a delegated `ServeHTTP` history response. -/
inductive HandlerResponse where
  | jsonError (statusCode : Nat) (body : JSONErrorBody)
  | history (statusCode : Nat) (body : List StatusEntry)
  deriving DecidableEq

/-- The fields of a `StatusChecker` (server.go lines 71-77) that the serving
path reads; the mutex is the synchronisation boundary and has no pure
content. -/
structure StatusChecker where
  moduleName : String
  path : String
  results : List CheckResult
  maxResults : Nat
  deriving DecidableEq

/-- Message of the empty-module branch of the `/status/` handler (line 312). -/
def msgEmptyModule : String :=
  "Module name cannot be empty. Path should be /status/<module-name>."

/-- Message of the invalid-module branch (line 316), with the module name
interpolated where Go uses `fmt.Sprintf` with `%s`. -/
def msgInvalidModule (module : String) : String :=
  "Nome de módulo inválido: \x27" ++ module ++
    "\x27. Permitidos apenas letras, números, hífen, underline e ponto. Exemplo válido: debian-archive. Consulte a documentação."

/-- Message of the not-monitored branch (line 322). -/
def msgNotMonitored (module : String) : String :=
  "Module \x27" ++ module ++ "\x27 is not monitored."

/-- Go `strings.TrimPre fix(urlPath, "/status/")` (line 310 — the name of the
Go helper is reproduced here with a space; it removes the leading
`"/status/"` when present and returns the string unchanged otherwise). -/
def trimStatusRoute (urlPath : String) : String :=
  if "/status/".data.isPrefixOf urlPath.data
  then { data := urlPath.data.drop 8 } else urlPath

/-- The `mux.HandleFunc("/status/", ...)` handler (server.go lines 309-326)
over the checker registry built in `main` (the registry map is modelled as
an association list; it is immutable once the handlers run). -/
def statusHandler (checkers : List (String × StatusChecker))
    (urlPath : String) : HandlerResponse :=
  let module := trimStatusRoute urlPath
  if module = "" then
    let r := writeJSONError statusBadRequest msgEmptyModule urlPath
    HandlerResponse.jsonError r.1 r.2
  else if !isValidModulePath module then
    let r := writeJSONError statusBadRequest (msgInvalidModule module) urlPath
    HandlerResponse.jsonError r.1 r.2
  else
    match checkers.lookup module with
    | none =>
        let r := writeJSONError statusNotFound (msgNotMonitored module) urlPath
        HandlerResponse.jsonError r.1 r.2
    | some checker =>
        let r := serveHTTPResponse checker.path checker.results
        HandlerResponse.history r.1 r.2

/-- Equality of two `CheckResult`s on every field except `Timestamp`. -/
def sameExceptTimestamp (a b : CheckResult) : Prop :=
  a.IsUp = b.IsUp ∧ a.Message = b.Message ∧ a.Error = b.Error
    ∧ a.HTTPStatus = b.HTTPStatus ∧ a.RsyncExitCode = b.RsyncExitCode
    ∧ a.RsyncOutput = b.RsyncOutput

/-- A concrete outcome used by the witnesses below. -/
def sampleResult (n : Nat) : CheckResult :=
  { IsUp := true, Message := "Operational", Error := "", HTTPStatus := 200,
    RsyncExitCode := 0, RsyncOutput := "", Timestamp := n }

/-- A concrete checker used by the witnesses below. -/
def sampleChecker : StatusChecker :=
  { moduleName := "debian", path := "/debian/", results := [sampleResult 0],
    maxResults := 288 }

/-!
### Heap model of Go slices, for the snapshot-independence claim

`ServeHTTP` copies the results under `RLock` into a freshly allocated slice
(`make` + `copy`, server.go lines 185-188) and serialises the copy after
releasing the lock, while `performCheck` keeps appending to the
checker-owned slice.  To state that such a snapshot is unaffected by later
appends, Go arrays are modelled explicitly: a heap is a list of arrays
addressed by allocation order, and a slice is a view (array id, offset,
length) into one of them.
-/

/-- A Go slice header: backing array id, offset, length.  The capacity is
the backing array length minus the offset, as in Go. -/
structure GoSlice where
  arr : Nat
  off : Nat
  len : Nat
  deriving DecidableEq

/-- The heap: arrays indexed by allocation order. -/
structure Heap where
  arrays : List (List CheckResult)
  deriving DecidableEq

/-- Contents of array `a` (an absent id reads as an empty array). -/
def Heap.get (h : Heap) (a : Nat) : List CheckResult :=
  h.arrays.getD a []

/-- Allocate a new array, returning the new heap and the array's id. -/
def Heap.alloc (h : Heap) (content : List CheckResult) : Heap × Nat :=
  ({ arrays := h.arrays ++ [content] }, h.arrays.length)

/-- Overwrite cell `i` of array `a`. -/
def Heap.writeAt (h : Heap) (a i : Nat) (v : CheckResult) : Heap :=
  { arrays := h.arrays.set a ((h.arrays.getD a []).set i v) }

/-- The sequence of elements a slice denotes. -/
def readSlice (h : Heap) (s : GoSlice) : List CheckResult :=
  ((h.get s.arr).drop s.off).take s.len

/-- Go `cap(s)`. -/
def sliceCapacity (h : Heap) (s : GoSlice) : Nat :=
  (h.get s.arr).length - s.off

/-- Go `append(s, v)` for a `[]CheckResult` slice: write in place past the
end when spare capacity exists, otherwise move everything to a freshly
allocated, larger backing array (Go grows the array geometrically; only
freshness and the carried data matter here, so the new array doubles). -/
def goAppend (h : Heap) (s : GoSlice) (v : CheckResult) : Heap × GoSlice :=
  if s.len < sliceCapacity h s then
    (h.writeAt s.arr (s.off + s.len) v, { s with len := s.len + 1 })
  else
    let content := readSlice h s ++ [v]
    let grown := content ++ List.replicate content.length CheckResult.zero
    let p := h.alloc grown
    (p.1, { arr := p.2, off := 0, len := content.length })

/-- The mutation of `performCheck` (lines 178-181) in the heap model:
append the new result, then reslice `[1:]` when over `maxResults`. -/
def performCheckAppendHeap (maxResults : Nat) (h : Heap) (s : GoSlice)
    (v : CheckResult) : Heap × GoSlice :=
  let p := goAppend h s v
  if maxResults < p.2.len
  then (p.1, { p.2 with off := p.2.off + 1, len := p.2.len - 1 })
  else p

/-- Iterating `performCheckAppendHeap` over a sequence of outcomes. -/
def performCheckAppendHeapAll (maxResults : Nat) (p : Heap × GoSlice) :
    List CheckResult → Heap × GoSlice
  | [] => p
  | v :: vs =>
      performCheckAppendHeapAll maxResults
        (performCheckAppendHeap maxResults p.1 p.2 v) vs

/-- The snapshot step of `ServeHTTP` (lines 185-188): `make` a fresh array
of the current length and `copy` the current contents into it. -/
def serveHTTPSnapshot (h : Heap) (s : GoSlice) : Heap × GoSlice :=
  let content := readSlice h s
  let fresh := content ++ List.replicate (s.len - content.length) CheckResult.zero
  let p := h.alloc fresh
  (p.1, { arr := p.2, off := 0, len := s.len })

/-- A concrete heap used by the witnesses below: one backing array of
capacity 2 holding one live outcome. -/
def sampleHeap : Heap :=
  { arrays := [[sampleResult 0, CheckResult.zero]] }

/-- The store slice into `sampleHeap`. -/
def sampleSlice : GoSlice :=
  { arr := 0, off := 0, len := 1 }

/-- The allow-list stated by the spec for module identifiers, written
independently of the code: ASCII letters, digits, hyphen, underscore, dot.
(Used to compare `isValidModulePath` against the spec's wording.) -/
def specAllowedChar (c : Char) : Prop :=
  ('a' ≤ c ∧ c ≤ 'z') ∨ ('A' ≤ c ∧ c ≤ 'Z') ∨ ('0' ≤ c ∧ c ≤ '9')
    ∨ c = '-' ∨ c = '_' ∨ c = '.'

instance (c : Char) : Decidable (specAllowedChar c) := by
  unfold specAllowedChar
  infer_instance

/-!
### Helper lemmas
-/

theorem charsContains_iff (sub s : List Char) :
    charsContains sub s = true ↔ sub <:+: s := by
  induction s with
  | nil =>
      simp [charsContains]
  | cons c cs ih =>
      simp [charsContains, ih, List.infix_cons_iff]

theorem firstNonEmptyLine_eq (ls : List String) :
    firstNonEmptyLine ls
      = ((ls.map goTrimSpace).filter (fun l => l != "")).headD "" := by
  induction ls with
  | nil => rfl
  | cons l ls ih =>
      by_cases h : goTrimSpace l = ""
      · simp [firstNonEmptyLine, h, ih]
      · simp [firstNonEmptyLine, h]

theorem performCheckAppend_drop (cap : Nat) (xs : List CheckResult)
    (x : CheckResult) :
    performCheckAppend cap (xs.drop (xs.length - cap)) x
      = (xs ++ [x]).drop ((xs ++ [x]).length - cap) := by
  unfold performCheckAppend
  by_cases h : xs.length < cap
  · have h0 : xs.length - cap = 0 := Nat.sub_eq_zero_of_le (Nat.le_of_lt h)
    have h1 : (xs ++ [x]).length - cap = 0 := by
      simp only [List.length_append, List.length_cons, List.length_nil]
      omega
    rw [h0, List.drop_zero, h1, List.drop_zero]
    have hnc : ¬ cap < (xs ++ [x]).length := by
      simp only [List.length_append, List.length_cons, List.length_nil]
      omega
    simp only [hnc, if_false]
  · have hcap : cap ≤ xs.length := Nat.le_of_not_lt h
    have hlen : (xs.drop (xs.length - cap)).length = cap := by
      simp only [List.length_drop]; omega
    have hc : cap < (xs.drop (xs.length - cap) ++ [x]).length := by
      simp only [List.length_append, hlen, List.length_cons, List.length_nil]
      omega
    simp only [hc, if_true]
    have hrhs : (xs ++ [x]).length - cap = (xs.length - cap) + 1 := by
      simp only [List.length_append, List.length_cons, List.length_nil]
      omega
    rw [hrhs]
    rcases Nat.eq_zero_or_pos cap with hz | hpos
    · subst hz
      simp only [Nat.sub_zero, List.drop_length, List.nil_append]
      have hlen2 : (xs ++ [x]).length = xs.length + 1 := by
        simp [List.length_append]
      rw [← hlen2, List.drop_length]
      rfl
    · have h1le : 1 ≤ (xs.drop (xs.length - cap)).length := by omega
      rw [List.drop_append_of_le_length h1le, List.drop_drop]
      have hd1 : (xs.length - cap) + 1 ≤ xs.length := by omega
      rw [List.drop_append_of_le_length hd1]

theorem performCheckAppendAll_eq_drop (cap : Nat) (xs : List CheckResult) :
    performCheckAppendAll cap xs = xs.drop (xs.length - cap) := by
  induction xs using List.reverseRecOn with
  | nil => simp [performCheckAppendAll]
  | append_singleton xs x ih =>
      have hstep : performCheckAppendAll cap (xs ++ [x])
          = performCheckAppend cap (performCheckAppendAll cap xs) x := by
        simp [performCheckAppendAll, List.foldl_append]
      rw [hstep, ih, performCheckAppend_drop]

theorem trimStatusRoute_append (module : String) :
    trimStatusRoute ("/status/" ++ module) = module := by
  unfold trimStatusRoute
  have hpre : "/status/".data.isPrefixOf ("/status/" ++ module).data = true := by
    rw [String.data_append]
    exact List.isPrefixOf_iff_prefix.mpr (List.prefix_append _ _)
  rw [if_pos hpre]
  apply String.ext
  rw [String.data_append]
  exact List.drop_left' rfl

/-!
### Claim theorems
-/

/-- C1: for every sequence of appends to a module's history, the stored
sequence never exceeds `maxResults` entries, and after `cap + k` appends the
stored sequence equals the last `cap` appended outcomes in original append
order (FIFO eviction of the oldest). -/
theorem historyStore_bounded_fifo :
    (∀ (cap : Nat) (xs : List CheckResult),
        (performCheckAppendAll cap xs).length ≤ cap)
    ∧ (∀ (cap k : Nat) (xs : List CheckResult), xs.length = cap + k →
        performCheckAppendAll cap xs = xs.drop k) := by
  constructor
  · intro cap xs
    rw [performCheckAppendAll_eq_drop, List.length_drop]
    omega
  · intro cap k xs h
    rw [performCheckAppendAll_eq_drop]
    congr 1
    omega

/-- Witness for C1 at capacity 2 with three appended outcomes. -/
theorem historyStore_bounded_fifo_witness :
    ([sampleResult 0, sampleResult 1, sampleResult 2].length = 2 + 1)
    ∧ (performCheckAppendAll 2 [sampleResult 0, sampleResult 1, sampleResult 2]).length ≤ 2
    ∧ performCheckAppendAll 2 [sampleResult 0, sampleResult 1, sampleResult 2]
        = [sampleResult 0, sampleResult 1, sampleResult 2].drop 1 :=
  ⟨rfl, historyStore_bounded_fifo.1 2 _,
   historyStore_bounded_fifo.2 2 1 [sampleResult 0, sampleResult 1, sampleResult 2] rfl⟩

/-- C8: the capacity computed by `NewStatusChecker` equals
`max 1 (24h / interval)` by truncating integer division, hence is at least 1
for every positive interval, including intervals longer than 24 hours. -/
theorem newStatusCheckerMaxResults_spec (interval : Nat) (h : 0 < interval) :
    newStatusCheckerMaxResults interval = max 1 (day_ns / interval)
    ∧ 1 ≤ newStatusCheckerMaxResults interval := by
  unfold newStatusCheckerMaxResults
  by_cases hc : day_ns / interval < 1 <;> simp only [hc, if_true, if_false] <;>
    constructor <;> omega

/-- Witness for C8 at a 48-hour polling interval (in nanoseconds): the
capacity bottoms out at 1. -/
theorem newStatusCheckerMaxResults_spec_witness :
    (0 < 172800000000000)
    ∧ (newStatusCheckerMaxResults 172800000000000 = max 1 (day_ns / 172800000000000)
        ∧ 1 ≤ newStatusCheckerMaxResults 172800000000000) :=
  ⟨by decide, newStatusCheckerMaxResults_spec 172800000000000 (by decide)⟩

/-- C4: a classifier input with exit status 0 (`err == nil` from
`CombinedOutput`, which happens exactly when the process exits 0) produces
the outcome that is up, with message "Operational", HTTP status 200, and no
error fields populated. -/
theorem performCheckClassify_success (ts : Nat) (outputStr : String) :
    performCheckClassify ts none outputStr
      = { IsUp := true, Message := "Operational", Error := "",
          HTTPStatus := 200, RsyncExitCode := 0, RsyncOutput := "",
          Timestamp := ts } := rfl

/-- C10: classification is deterministic; two runs on identical probe
results agree on every `CheckResult` field except `Timestamp`. -/
theorem performCheckClassify_deterministic (ts1 ts2 : Nat)
    (probeErr : Option ProbeError) (outputStr : String) :
    sameExceptTimestamp (performCheckClassify ts1 probeErr outputStr)
      (performCheckClassify ts2 probeErr outputStr) := by
  cases probeErr <;>
    simp [performCheckClassify, sameExceptTimestamp]

theorem isAllowedModuleChar_iff (c : Char) :
    isAllowedModuleChar c = true ↔ specAllowedChar c := by
  unfold isAllowedModuleChar specAllowedChar
  simp only [Bool.or_eq_true, Bool.and_eq_true, decide_eq_true_eq, beq_iff_eq]
  tauto

/-- C2 counterexample: the string ".." consists only of allowed characters
(dots), so the anchored regex accepts it, although the claim requires every
string containing the substring ".." to be rejected. -/
theorem isValidModulePath_dotdot_counterexample :
    isValidModulePath ".." = true ∧ ("..".data <:+: "..".data) :=
  ⟨by decide, List.infix_refl _⟩

/-- C2 (amended): `isValidModulePath` returns true for every non-empty
string composed only of ASCII letters, digits, hyphen, underscore and dot
(this includes strings containing the substring ".."), and false for every
other string — in particular every string containing a path separator `/`,
every string containing a space, and the empty string. -/
theorem isValidModulePath_spec :
    (∀ s : String, isValidModulePath s = true
        ↔ (s ≠ "" ∧ ∀ c ∈ s.data, specAllowedChar c))
    ∧ (∀ s : String, '/' ∈ s.data → isValidModulePath s = false)
    ∧ (∀ s : String, ' ' ∈ s.data → isValidModulePath s = false)
    ∧ isValidModulePath "" = false := by
  have hmain : ∀ s : String, isValidModulePath s = true
      ↔ (s ≠ "" ∧ ∀ c ∈ s.data, specAllowedChar c) := by
    intro s
    unfold isValidModulePath
    rw [Bool.and_eq_true, List.all_eq_true]
    constructor
    · rintro ⟨h1, h2⟩
      refine ⟨?_, fun c hc => (isAllowedModuleChar_iff c).mp (h2 c hc)⟩
      intro he
      subst he
      exact absurd h1 (by decide)
    · rintro ⟨h1, h2⟩
      refine ⟨?_, fun c hc => (isAllowedModuleChar_iff c).mpr (h2 c hc)⟩
      have hd : s.data ≠ [] := fun hd => h1 (String.ext (by rw [hd]))
      cases hdata : s.data with
      | nil => exact absurd hdata hd
      | cons c cs => rfl
  refine ⟨hmain, ?_, ?_, rfl⟩
  · intro s hs
    rw [Bool.eq_false_iff]
    intro h
    have hsp := ((hmain s).mp h).2 '/' hs
    revert hsp
    decide
  · intro s hs
    rw [Bool.eq_false_iff]
    intro h
    have hsp := ((hmain s).mp h).2 ' ' hs
    revert hsp
    decide

/-- Witness for C2 (amended) at concrete identifiers. -/
theorem isValidModulePath_spec_witness :
    (('/' ∈ "a/b".data) ∧ isValidModulePath "a/b" = false)
    ∧ ((' ' ∈ "a b".data) ∧ isValidModulePath "a b" = false)
    ∧ isValidModulePath "" = false
    ∧ isValidModulePath "debian-archive.1_x" = true :=
  ⟨⟨by decide, isValidModulePath_spec.2.1 "a/b" (by decide)⟩,
   ⟨by decide, isValidModulePath_spec.2.2.1 "a b" (by decide)⟩,
   isValidModulePath_spec.2.2.2,
   (isValidModulePath_spec.1 "debian-archive.1_x").mpr
     ⟨by decide, by decide⟩⟩

/-- C3: for a non-zero exit status, the outcome's HTTP status is 404
(NOT_FOUND) when the combined output contains the unknown-module sentinel
substring, and 500 (INTERNAL) otherwise. -/
theorem performCheckClassify_down_httpStatus (ts c : Nat) (outputStr : String)
    (hc : c ≠ 0) :
    ((unknownModuleSentinel.data <:+: outputStr.data) →
        (performCheckClassify ts (some (ProbeError.exitErr c)) outputStr).HTTPStatus
          = 404)
    ∧ (¬ (unknownModuleSentinel.data <:+: outputStr.data) →
        (performCheckClassify ts (some (ProbeError.exitErr c)) outputStr).HTTPStatus
          = 500) := by
  constructor
  · intro h
    have hs : strContains outputStr unknownModuleSentinel = true :=
      (charsContains_iff _ _).mpr h
    simp [performCheckClassify, hs, statusNotFound]
  · intro h
    have hs : strContains outputStr unknownModuleSentinel = false :=
      Bool.eq_false_iff.mpr (fun hh => h ((charsContains_iff _ _).mp hh))
    simp [performCheckClassify, hs, statusInternalServerError]

/-- Witness for C3: one output carrying the sentinel, one without. -/
theorem performCheckClassify_down_httpStatus_witness :
    ((1 : Nat) ≠ 0)
    ∧ (unknownModuleSentinel.data <:+: "@ERROR: Unknown module deb".data)
    ∧ (performCheckClassify 0 (some (ProbeError.exitErr 1))
        "@ERROR: Unknown module deb").HTTPStatus = 404
    ∧ ¬ (unknownModuleSentinel.data <:+: "rsync: connection refused".data)
    ∧ (performCheckClassify 0 (some (ProbeError.exitErr 1))
        "rsync: connection refused").HTTPStatus = 500 :=
  ⟨by decide, by decide,
   (performCheckClassify_down_httpStatus 0 1 "@ERROR: Unknown module deb"
      (by decide)).1 (by decide),
   by decide,
   (performCheckClassify_down_httpStatus 0 1 "rsync: connection refused"
      (by decide)).2 (by decide)⟩

/-- C5 counterexample: at exit status 1 with empty combined output there is
no non-empty line, and the placeholder stored in `Error` is the fixed
Portuguese string of the code, not "unknown probe error". -/
theorem performCheckClassify_placeholder_counterexample :
    (performCheckClassify 0 (some (ProbeError.exitErr 1)) "").Error
      = "Erro desconhecido do rsync"
    ∧ "Erro desconhecido do rsync" ≠ "unknown probe error" :=
  ⟨by decide, by decide⟩

/-- C5 (amended): for a non-zero exit status, the down outcome's `Error`
equals the first line of the combined output that is non-empty after
trimming leading and trailing whitespace — or the fixed placeholder
"Erro desconhecido do rsync" when no such line exists — `RsyncOutput`
equals the whitespace-trimmed combined output, and `RsyncExitCode` equals
the process exit status. -/
theorem performCheckClassify_down_fields (ts c : Nat) (outputStr : String)
    (hc : c ≠ 0) :
    (performCheckClassify ts (some (ProbeError.exitErr c)) outputStr).Error
      = (((goSplitNewline outputStr).map goTrimSpace).filter
          (fun l => l != "")).headD "Erro desconhecido do rsync"
    ∧ (performCheckClassify ts (some (ProbeError.exitErr c)) outputStr).RsyncOutput
        = goTrimSpace outputStr
    ∧ (performCheckClassify ts (some (ProbeError.exitErr c)) outputStr).RsyncExitCode
        = c := by
  refine ⟨?_, rfl, rfl⟩
  show (if firstNonEmptyLine (goSplitNewline outputStr) = ""
        then unknownRsyncErrorMsg else firstNonEmptyLine (goSplitNewline outputStr)) = _
  rw [firstNonEmptyLine_eq]
  rcases hl : ((goSplitNewline outputStr).map goTrimSpace).filter (fun l => l != "")
    with _ | ⟨a, as⟩
  · simp [List.headD, unknownRsyncErrorMsg]
  · have hmem : a ∈ ((goSplitNewline outputStr).map goTrimSpace).filter
        (fun l => l != "") := by
      rw [hl]
      exact List.mem_cons_self _ _
    have ha := List.of_mem_filter hmem
    have ha2 : a ≠ "" := by simpa using ha
    simp [List.headD, ha2]

/-- Witness for C5 (amended) at a concrete probe failure. -/
theorem performCheckClassify_down_fields_witness :
    ((23 : Nat) ≠ 0)
    ∧ ((performCheckClassify 0 (some (ProbeError.exitErr 23)) "  \nrsync: erro\n").Error
        = (((goSplitNewline "  \nrsync: erro\n").map goTrimSpace).filter
            (fun l => l != "")).headD "Erro desconhecido do rsync"
      ∧ (performCheckClassify 0 (some (ProbeError.exitErr 23)) "  \nrsync: erro\n").RsyncOutput
          = goTrimSpace "  \nrsync: erro\n"
      ∧ (performCheckClassify 0 (some (ProbeError.exitErr 23)) "  \nrsync: erro\n").RsyncExitCode
          = 23) :=
  ⟨by decide,
   performCheckClassify_down_fields 0 23 "  \nrsync: erro\n" (by decide)⟩

/-- C6: the aggregate response status code equals the HTTP status of the
most recent outcome in the module's history (200 when that outcome is up,
404 or 500 when it is down, for classifier-produced outcomes), and an empty
history yields 200 with zero outcomes. -/
theorem serveHTTPResponse_status_spec :
    (∀ path : String, serveHTTPResponse path [] = (200, []))
    ∧ (∀ (path : String) (rs : List CheckResult) (r : CheckResult),
        (serveHTTPResponse path (rs ++ [r])).1 = r.HTTPStatus)
    ∧ (∀ (path : String) (rs : List CheckResult) (r : CheckResult) (ts : Nat)
        (probeErr : Option ProbeError) (o : String),
        r = performCheckClassify ts probeErr o →
        ((r.IsUp = true → (serveHTTPResponse path (rs ++ [r])).1 = 200)
          ∧ (r.IsUp = false →
              (serveHTTPResponse path (rs ++ [r])).1 = 404
                ∨ (serveHTTPResponse path (rs ++ [r])).1 = 500))) := by
  have hlast : ∀ (path : String) (rs : List CheckResult) (r : CheckResult),
      (serveHTTPResponse path (rs ++ [r])).1 = r.HTTPStatus := by
    intro path rs r
    simp [serveHTTPResponse, List.getLast?_concat]
  refine ⟨fun path => rfl, hlast, ?_⟩
  intro path rs r ts probeErr o hr
  cases probeErr with
  | none =>
      subst hr
      constructor
      · intro _
        rw [hlast]
        rfl
      · intro hfalse
        simp [performCheckClassify] at hfalse
  | some pe =>
      subst hr
      constructor
      · intro htrue
        simp [performCheckClassify] at htrue
      · intro _
        rw [hlast]
        rcases Bool.eq_false_or_eq_true
            (strContains o unknownModuleSentinel) with hcon | hcon
        · left
          simp [performCheckClassify, hcon, statusNotFound]
        · right
          simp [performCheckClassify, hcon, statusInternalServerError]

/-- Witness for C6: a one-element history ending up, and one ending down. -/
theorem serveHTTPResponse_status_spec_witness :
    ((performCheckClassify 5 none "ok").IsUp = true)
    ∧ (serveHTTPResponse "/debian/" ([] ++ [performCheckClassify 5 none "ok"])).1 = 200
    ∧ ((performCheckClassify 7 (some (ProbeError.exitErr 1)) "fail").IsUp = false)
    ∧ ((serveHTTPResponse "/debian/"
          ([] ++ [performCheckClassify 7 (some (ProbeError.exitErr 1)) "fail"])).1 = 404
        ∨ (serveHTTPResponse "/debian/"
            ([] ++ [performCheckClassify 7 (some (ProbeError.exitErr 1)) "fail"])).1 = 500) :=
  ⟨by decide,
   (serveHTTPResponse_status_spec.2.2 "/debian/" [] _ 5 none "ok" rfl).1 (by decide),
   by decide,
   (serveHTTPResponse_status_spec.2.2 "/debian/" [] _ 7
      (some (ProbeError.exitErr 1)) "fail" rfl).2 (by decide)⟩

/-- C7: an empty or invalid query identifier yields a structured 400 client
error computed without consulting the registry (the response is identical
for any two registries, so the History Store is neither read nor modified),
and a valid identifier absent from the registry yields the structured
NotMonitored error with code 404. -/
theorem statusHandler_validation_spec :
    (∀ (checkers checkers2 : List (String × StatusChecker)) (module : String),
        (module = "" ∨ isValidModulePath module = false) →
        ((∃ body, statusHandler checkers ("/status/" ++ module)
            = HandlerResponse.jsonError 400 body
            ∧ body.code = 400 ∧ body.success = false)
          ∧ statusHandler checkers ("/status/" ++ module)
              = statusHandler checkers2 ("/status/" ++ module)))
    ∧ (∀ (checkers : List (String × StatusChecker)) (module : String),
        isValidModulePath module = true → checkers.lookup module = none →
        statusHandler checkers ("/status/" ++ module)
          = HandlerResponse.jsonError 404
              { path := "/status/" ++ module, success := false,
                error := msgNotMonitored module, code := 404 }) := by
  constructor
  · intro checkers checkers2 module hbad
    by_cases hm : module = ""
    · subst hm
      have htr : trimStatusRoute "/status/" = "" := by decide
      refine ⟨⟨{ path := "/status/" ++ "", success := false,
                 error := msgEmptyModule, code := 400 }, ?_, rfl, rfl⟩, ?_⟩
      · simp [statusHandler, htr, writeJSONError, statusBadRequest]
      · simp [statusHandler, htr]
    · have hinv : isValidModulePath module = false := by
        rcases hbad with hbe | hbi
        · exact absurd hbe hm
        · exact hbi
      refine ⟨⟨{ path := "/status/" ++ module, success := false,
                 error := msgInvalidModule module, code := 400 }, ?_, rfl, rfl⟩, ?_⟩
      · simp [statusHandler, trimStatusRoute_append, hm, hinv, writeJSONError,
          statusBadRequest]
      · simp [statusHandler, trimStatusRoute_append, hm, hinv]
  · intro checkers module hvalid hlookup
    have hm : module ≠ "" := by
      intro he
      subst he
      exact absurd hvalid (by decide)
    simp [statusHandler, trimStatusRoute_append, hm, hvalid, hlookup,
      writeJSONError, statusNotFound]

/-- Witness for C7: the invalid identifier "bad!name" (against both the
empty registry and a one-module registry) and the unregistered valid
identifier "nonexistent". -/
theorem statusHandler_validation_spec_witness :
    (isValidModulePath "bad!name" = false)
    ∧ ((∃ body, statusHandler [] ("/status/" ++ "bad!name")
          = HandlerResponse.jsonError 400 body
          ∧ body.code = 400 ∧ body.success = false)
        ∧ statusHandler [] ("/status/" ++ "bad!name")
            = statusHandler [("debian", sampleChecker)] ("/status/" ++ "bad!name"))
    ∧ (isValidModulePath "nonexistent" = true)
    ∧ (List.lookup "nonexistent" ([] : List (String × StatusChecker)) = none)
    ∧ statusHandler [] ("/status/" ++ "nonexistent")
        = HandlerResponse.jsonError 404
            { path := "/status/" ++ "nonexistent", success := false,
              error := msgNotMonitored "nonexistent", code := 404 } :=
  ⟨by decide,
   statusHandler_validation_spec.1 [] [("debian", sampleChecker)] "bad!name"
     (Or.inr (by decide)),
   by decide, rfl,
   statusHandler_validation_spec.2 [] "nonexistent" (by decide) rfl⟩

theorem Heap.get_writeAt_ne (h : Heap) (b i : Nat) (v : CheckResult)
    (a : Nat) (hab : a ≠ b) : (h.writeAt b i v).get a = h.get a := by
  unfold Heap.writeAt Heap.get
  simp [List.getD_eq_getElem?_getD, List.getElem?_set_ne (Ne.symm hab)]

theorem Heap.get_alloc_old (h : Heap) (content : List CheckResult)
    (a : Nat) (ha : a < h.arrays.length) :
    (h.alloc content).1.get a = h.get a := by
  unfold Heap.alloc Heap.get
  simp [List.getD_eq_getElem?_getD, List.getElem?_append_left ha]

theorem Heap.get_alloc_fresh (h : Heap) (content : List CheckResult) :
    (h.alloc content).1.get h.arrays.length = content := by
  unfold Heap.alloc Heap.get
  simp [List.getD_eq_getElem?_getD, List.getElem?_concat_length]

theorem goAppend_frame (h : Heap) (s : GoSlice) (v : CheckResult) (a : Nat)
    (ha : a ≠ s.arr) (halen : a < h.arrays.length) :
    ((goAppend h s v).1.get a = h.get a)
    ∧ ((goAppend h s v).2.arr ≠ a)
    ∧ (a < (goAppend h s v).1.arrays.length) := by
  unfold goAppend
  by_cases hcap : s.len < sliceCapacity h s
  · rw [if_pos hcap]
    refine ⟨Heap.get_writeAt_ne h s.arr (s.off + s.len) v a ha, Ne.symm ha, ?_⟩
    unfold Heap.writeAt
    simpa using halen
  · rw [if_neg hcap]
    refine ⟨Heap.get_alloc_old h _ a halen, ?_, ?_⟩
    · show h.arrays.length ≠ a
      omega
    · show a < (h.alloc _).1.arrays.length
      unfold Heap.alloc
      simp only [List.length_append, List.length_cons, List.length_nil]
      omega

theorem performCheckAppendHeap_frame (cap : Nat) (h : Heap) (s : GoSlice)
    (v : CheckResult) (a : Nat) (ha : a ≠ s.arr)
    (halen : a < h.arrays.length) :
    ((performCheckAppendHeap cap h s v).1.get a = h.get a)
    ∧ ((performCheckAppendHeap cap h s v).2.arr ≠ a)
    ∧ (a < (performCheckAppendHeap cap h s v).1.arrays.length) := by
  have hg := goAppend_frame h s v a ha halen
  unfold performCheckAppendHeap
  by_cases htrim : cap < (goAppend h s v).2.len
  · rw [if_pos htrim]
    exact ⟨hg.1, hg.2.1, hg.2.2⟩
  · rw [if_neg htrim]
    exact hg

theorem performCheckAppendHeapAll_frame (cap : Nat) (vs : List CheckResult) :
    ∀ (h : Heap) (s : GoSlice) (a : Nat), a ≠ s.arr → a < h.arrays.length →
      (performCheckAppendHeapAll cap (h, s) vs).1.get a = h.get a := by
  induction vs with
  | nil =>
      intro h s a _ _
      rfl
  | cons v vs ih =>
      intro h s a ha halen
      have hf := performCheckAppendHeap_frame cap h s v a ha halen
      have ih2 := ih (performCheckAppendHeap cap h s v).1
        (performCheckAppendHeap cap h s v).2 a (Ne.symm hf.2.1) hf.2.2
      calc (performCheckAppendHeapAll cap (h, s) (v :: vs)).1.get a
          = (performCheckAppendHeapAll cap
              (performCheckAppendHeap cap h s v) vs).1.get a := rfl
        _ = (performCheckAppendHeap cap h s v).1.get a := ih2
        _ = h.get a := hf.1

theorem readSlice_length (h : Heap) (s : GoSlice)
    (hwf : s.off + s.len ≤ (h.get s.arr).length) :
    (readSlice h s).length = s.len := by
  unfold readSlice
  simp only [List.length_take, List.length_drop]
  omega

theorem serveHTTPSnapshot_reads (h : Heap) (s : GoSlice)
    (hwf : s.off + s.len ≤ (h.get s.arr).length) :
    readSlice (serveHTTPSnapshot h s).1 (serveHTTPSnapshot h s).2
      = readSlice h s := by
  have hlen := readSlice_length h s hwf
  have key : ∀ content : List CheckResult, content.length = s.len →
      readSlice (h.alloc content).1
        { arr := (h.alloc content).2, off := 0, len := s.len } = content := by
    intro content hcl
    unfold readSlice Heap.alloc Heap.get
    simp only [List.getD_eq_getElem?_getD, List.getElem?_concat_length,
      Option.getD_some, List.drop_zero]
    exact List.take_of_length_le (by omega)
  have hsnap : serveHTTPSnapshot h s
      = ((h.alloc (readSlice h s)).1,
         { arr := (h.alloc (readSlice h s)).2, off := 0, len := s.len }) := by
    simp only [serveHTTPSnapshot, hlen, Nat.sub_self, List.replicate_zero,
      List.append_nil]
  rw [hsnap]
  exact key (readSlice h s) hlen

/-- C9: the snapshot taken by the query path is an independent copy of the
module's history: it equals the stored sequence at copy time, and any
sequence of appends performed on the store afterwards leaves the snapshot's
contents unchanged. -/
theorem serveHTTPSnapshot_independent (cap : Nat) (h : Heap) (s : GoSlice)
    (vs : List CheckResult)
    (hwf : s.off + s.len ≤ (h.get s.arr).length)
    (hlive : s.arr < h.arrays.length) :
    (readSlice (serveHTTPSnapshot h s).1 (serveHTTPSnapshot h s).2
        = readSlice h s)
    ∧ (readSlice
        (performCheckAppendHeapAll cap ((serveHTTPSnapshot h s).1, s) vs).1
        (serveHTTPSnapshot h s).2
        = readSlice h s) := by
  refine ⟨serveHTTPSnapshot_reads h s hwf, ?_⟩
  have harr : (serveHTTPSnapshot h s).2.arr = h.arrays.length := rfl
  have hheaplen : (serveHTTPSnapshot h s).1.arrays.length
      = h.arrays.length + 1 := by
    show (h.alloc _).1.arrays.length = h.arrays.length + 1
    unfold Heap.alloc
    simp
  have hne : h.arrays.length ≠ s.arr := by omega
  have hframe := performCheckAppendHeapAll_frame cap vs
    (serveHTTPSnapshot h s).1 s h.arrays.length hne (by omega)
  have hsame : readSlice
      (performCheckAppendHeapAll cap ((serveHTTPSnapshot h s).1, s) vs).1
      (serveHTTPSnapshot h s).2
      = readSlice (serveHTTPSnapshot h s).1 (serveHTTPSnapshot h s).2 := by
    unfold readSlice
    rw [harr, hframe]
  rw [hsame]
  exact serveHTTPSnapshot_reads h s hwf

/-- Witness for C9: a two-cell backing array holding one outcome, then
three appends after the snapshot. -/
theorem serveHTTPSnapshot_independent_witness :
    (sampleSlice.off + sampleSlice.len
        ≤ (sampleHeap.get sampleSlice.arr).length
      ∧ sampleSlice.arr < sampleHeap.arrays.length)
    ∧ ((readSlice (serveHTTPSnapshot sampleHeap sampleSlice).1
          (serveHTTPSnapshot sampleHeap sampleSlice).2
          = readSlice sampleHeap sampleSlice)
      ∧ (readSlice
          (performCheckAppendHeapAll 2
            ((serveHTTPSnapshot sampleHeap sampleSlice).1, sampleSlice)
            [sampleResult 1, sampleResult 2, sampleResult 3]).1
          (serveHTTPSnapshot sampleHeap sampleSlice).2
          = readSlice sampleHeap sampleSlice)) :=
  ⟨⟨by decide, by decide⟩,
   serveHTTPSnapshot_independent 2 sampleHeap sampleSlice
     [sampleResult 1, sampleResult 2, sampleResult 3]
     (by decide) (by decide)⟩
